import Mathlib

/-!
Verification development for the Stylus-Hardware-Anchor repository.

The core under study is the canonical receipt verifier in
`nexus_verifier.py` (receipt parsing, the four ordered checks, the
counter-database update, registry administration) together with the
packed-batch helpers of `scripts/benchmark_receipts.py` and the digest
construction of `generate_test_receipt.py`.

Modelling conventions:
* Byte strings are `List Nat`, each element intended `< 256`.
* The external Keccak-256 primitive (`eth_hash.auto.keccak`, a library
  dependency, not repository code) is an abstract parameter
  `kec : Bytes → Bytes`; every theorem is universally quantified over it.
* Python's `json.loads` (standard library, not repository code) is an
  abstract parameter `jparse : String → Option JDoc`; `none` stands for a
  `json.JSONDecodeError`.  A decoded document is a `JDoc`: either a JSON
  object with `JVal` field values, or some parseable non-object document.
  `JVal` models field values with integer numerics; non-integral JSON
  numbers are outside the model (they are approximated by `JVal.jother`,
  of which the repository code observes only the truthiness).
* Python exceptions become `Except` values.  `_parse_receipt` catches
  `json.JSONDecodeError`, `KeyError`, `ValueError` and `AssertionError`
  and re-raises them wrapped as "Invalid receipt format"; these become
  `VError.malformedReceipt`.  Exceptions that escape that handler
  (`TypeError`/`AttributeError`/`OverflowError` on ill-typed field
  values) become `VError.typeFault`; they are still caught by the
  catch-all handler in `verify_attestation`, which turns every exception
  into a `(False, message)` return — modelled as `Except.error`.
* Python dicts are association lists with first-match lookup and
  replace-in-place insertion; Python sets are lists with membership.
-/

set_option maxRecDepth 1000000
set_option linter.unusedVariables false

abbrev Bytes := List Nat

instance {ε α : Type} [DecidableEq ε] [DecidableEq α] : DecidableEq (Except ε α) := fun x y =>
  match x, y with
  | .ok a, .ok b =>
      if h : a = b then .isTrue (h ▸ rfl) else .isFalse (fun he => h (Except.ok.inj he))
  | .error e, .error f =>
      if h : e = f then .isTrue (h ▸ rfl) else .isFalse (fun he => h (Except.error.inj he))
  | .ok _, .error _ => .isFalse (fun he => Except.noConfusion he)
  | .error _, .ok _ => .isFalse (fun he => Except.noConfusion he)

/-- Big-endian value of a byte string: `foldl (fun a b => 256*a + b) 0`.
Used to characterise the 8-byte big-endian counter encoding. -/
def beVal (bs : Bytes) : Nat :=
  bs.foldl (fun a b => 256 * a + b) 0

/-- `counter.to_bytes(8, byteorder='big')` for `counter < 2^64`. -/
def be64 (n : Nat) : Bytes :=
  [n / 2 ^ 56 % 256, n / 2 ^ 48 % 256, n / 2 ^ 40 % 256, n / 2 ^ 32 % 256,
   n / 2 ^ 24 % 256, n / 2 ^ 16 % 256, n / 2 ^ 8 % 256, n % 256]

/-- Value of a single hexadecimal digit, as in `bytes.fromhex`. -/
def hexVal? (c : Char) : Option Nat :=
  if '0' ≤ c ∧ c ≤ '9' then some (c.toNat - 48)
  else if 'a' ≤ c ∧ c ≤ 'f' then some (c.toNat - 87)
  else if 'A' ≤ c ∧ c ≤ 'F' then some (c.toNat - 55)
  else none

/-- Pair up hex digits as in `bytes.fromhex`; spaces between byte pairs are
skipped (CPython ignores ASCII whitespace between bytes; only the space
character is modelled).  An odd leftover digit or a non-hex character
fails (Python raises `ValueError`). -/
def hexPairs? : List Char → Option Bytes
  | [] => some []
  | ' ' :: rest => hexPairs? rest
  | c1 :: c2 :: rest => do
      let h ← hexVal? c1
      let l ← hexVal? c2
      let bs ← hexPairs? rest
      pure ((16 * h + l) :: bs)
  | [_] => none

/-- `bytes.fromhex` on a string, returning `none` where Python raises
`ValueError`. -/
def bytesFromHex (s : String) : Option Bytes :=
  hexPairs? s.toList

/-- Python `s.startswith("0x")`. -/
def startsWith0x (s : String) : Bool :=
  match s.toList with
  | '0' :: 'x' :: _ => true
  | _ => false

/-- `s[2:] if s.startswith("0x") else s` — the marker strip used on every
hex field of a receipt. -/
def strip0x (s : String) : String :=
  if startsWith0x s then s.drop 2 else s

/-- Decimal digit run for Python `int(str)`: `none` on empty or non-digit. -/
def digitsToNat? (cs : List Char) : Option Nat :=
  if cs.isEmpty then none
  else cs.foldl
    (fun acc c =>
      match acc with
      | none => none
      | some a => if '0' ≤ c ∧ c ≤ '9' then some (10 * a + (c.toNat - 48)) else none)
    (some 0)

/-- Python `int(s)` on a string: surrounding spaces stripped, optional
sign, decimal digits; `none` where Python raises `ValueError`.
(Underscore digit separators and non-space whitespace are outside the
model.) -/
def strToInt? (s : String) : Option Int :=
  let cs := ((s.toList.dropWhile (· = ' ')).reverse.dropWhile (· = ' ')).reverse
  match cs with
  | '-' :: rest => (digitsToNat? rest).map (fun n => -(n : Int))
  | '+' :: rest => (digitsToNat? rest).map (fun n => (n : Int))
  | _ => (digitsToNat? cs).map (fun n => (n : Int))

/-- A JSON field value as returned by `json.loads`.  `jother` stands for
arrays, nested objects, `null` and non-integral numbers; the repository
code observes only its truthiness. -/
inductive JVal where
  | jstr (s : String)
  | jint (n : Int)
  | jbool (b : Bool)
  | jother (truthy : Bool)
  deriving DecidableEq, Repr

/-- Python truthiness of a `JVal` (a string is truthy exactly when it is
non-empty). -/
def truthy : JVal → Bool
  | .jstr s => !s.toList.isEmpty
  | .jint n => n != 0
  | .jbool b => b
  | .jother t => t

/-- A parseable JSON document: an object, or any parseable non-object
(array, string, number, boolean, null) — subscripting the latter with a
string key raises `TypeError` in the codec. -/
inductive JDoc where
  | jobj (fields : List (String × JVal))
  | jnonobj
  deriving DecidableEq, Repr

/-- Dict lookup `data.get(key)` / `data[key]` on a decoded object. -/
def jget : List (String × JVal) → String → Option JVal
  | [], _ => none
  | (k', v) :: rest, k => if k' = k then some v else jget rest k

/-- Parsed receipt structure (`Receipt` dataclass). -/
structure Receipt where
  hardware_identity : Bytes
  firmware_hash : Bytes
  execution_hash : Bytes
  counter : Nat
  receipt_digest : Bytes
  deriving DecidableEq, Repr

/-- Verification failure, carrying exactly the receipt data interpolated
into the corresponding Python exception message.
* `unauthorizedHardware`: `hardware_identity.hex()[:16]`, i.e. the first
  8 bytes of the hardware identity;
* `unapprovedFirmware`: the first 8 bytes of the firmware hash;
* `replayDetected`: the receipt counter and the last seen counter;
* `digestMismatch`: the reconstructed and the received digests;
* `malformedReceipt`: the detail of an error caught and wrapped by
  `_parse_receipt` ("Invalid receipt format: ...");
* `typeFault`: an error that escapes `_parse_receipt`'s handler
  (`TypeError` / `AttributeError` / `OverflowError`) and is caught only
  by the catch-all handler of `verify_attestation`. -/
inductive VError where
  | unauthorizedHardware (hwTrunc : Bytes)
  | unapprovedFirmware (fwTrunc : Bytes)
  | replayDetected (counter lastSeen : Nat)
  | digestMismatch (expected received : Bytes)
  | malformedReceipt (detail : String)
  | typeFault (detail : String)
  deriving DecidableEq, Repr

/-- Parse one 32-byte hex field value that is required to be a string:
strip the optional `0x` marker, `bytes.fromhex`, assert length 32. -/
def parseHexString (s : String) (fieldName : String) : Except VError Bytes :=
  match bytesFromHex (strip0x s) with
  | none => .error (.malformedReceipt ("non-hexadecimal value in " ++ fieldName))
  | some bs =>
      if bs.length = 32 then .ok bs
      else .error (.malformedReceipt (fieldName ++ " must be 32 bytes"))

/-- Parse a required hex field: `data[name]` (absence is a `KeyError`,
caught and wrapped), then `.startswith`/`fromhex`/length assert.  A
non-string value raises `AttributeError`, which escapes the codec's
handler. -/
def parseHexField32 (o : Option JVal) (fieldName : String) : Except VError Bytes :=
  match o with
  | none => .error (.malformedReceipt fieldName)
  | some (.jstr s) => parseHexString s fieldName
  | some _ => .error (.typeFault (fieldName ++ " value has no startswith attribute"))

/-- Parse the firmware hash field: `data.get("firmware_hash")` followed by
a truthiness test; an absent or falsy value is silently replaced by the
32-zero-byte placeholder `bytes(32)`. -/
def parseFirmware (o : Option JVal) : Except VError Bytes :=
  match o with
  | none => .ok (List.replicate 32 0)
  | some v =>
      if truthy v then
        match v with
        | .jstr s => parseHexString s "firmware_hash"
        | _ => .error (.typeFault "firmware_hash value has no startswith attribute")
      else .ok (List.replicate 32 0)

/-- Python `int(x)` on a field value: identity on ints, `0`/`1` on bools,
decimal parse on strings (`ValueError` is caught and wrapped), and
`TypeError` on lists/dicts/null (escapes the codec's handler). -/
def pyInt? : JVal → Except VError Int
  | .jint n => .ok n
  | .jbool b => .ok (if b then 1 else 0)
  | .jstr s =>
      match strToInt? s with
      | some n => .ok n
      | none => .error (.malformedReceipt "invalid literal for int")
  | .jother _ => .error (.typeFault "int argument must be a string or a number")

/-- Parse the counter field: `int(data["counter"])` followed by the
non-negativity and uint64 range asserts. -/
def parseCounter (o : Option JVal) : Except VError Nat :=
  match o with
  | none => .error (.malformedReceipt "counter")
  | some v =>
      match pyInt? v with
      | .error e => .error e
      | .ok n =>
          if n < 0 then .error (.malformedReceipt "counter must be non-negative")
          else if n > (2 ^ 64 - 1 : Int) then .error (.malformedReceipt "counter must fit in uint64")
          else .ok n.toNat

/-- Field extraction of `_parse_receipt`, in the source's order:
hardware identity, firmware hash, execution hash, receipt digest,
counter. -/
def parseFields (fs : List (String × JVal)) : Except VError Receipt := do
  let hw ← parseHexField32 (jget fs "hardware_identity") "hardware_identity"
  let fw ← parseFirmware (jget fs "firmware_hash")
  let ex ← parseHexField32 (jget fs "execution_hash") "execution_hash"
  let dg ← parseHexField32 (jget fs "receipt_digest") "receipt_digest"
  let c ← parseCounter (jget fs "counter")
  pure ⟨hw, fw, ex, c, dg⟩

/-- `_parse_receipt`: `json.loads` (abstract), then field extraction.  An
unparseable container is a `json.JSONDecodeError` (a `ValueError`
subclass), caught and wrapped; subscripting a non-object document by a
string key is a `TypeError`, which escapes the codec's handler. -/
def parseReceipt (jp : String → Option JDoc) (blob : String) : Except VError Receipt :=
  match jp blob with
  | none => .error (.malformedReceipt "Expecting value")
  | some .jnonobj => .error (.typeFault "document is not an object")
  | some (.jobj fs) => parseFields fs

/-- Association-list lookup modelling Python dict indexing. -/
def lookupB {α : Type} (k : Bytes) : List (Bytes × α) → Option α
  | [] => none
  | (k', v) :: rest => if k' = k then some v else lookupB k rest

/-- Association-list insertion modelling Python dict assignment:
replace in place if present, append otherwise. -/
def insertB {α : Type} (k : Bytes) (v : α) : List (Bytes × α) → List (Bytes × α)
  | [] => [(k, v)]
  | (k', v') :: rest => if k' = k then (k, v) :: rest else (k', v') :: insertB k v rest

/-- Python set `add`: no-op when the element is already present. -/
def setAdd (x : Bytes) (s : List Bytes) : List Bytes :=
  if x ∈ s then s else s ++ [x]

/-- The `NexusVerifier` store: hardware allowlist, replay counters,
approved firmware set. -/
structure VState where
  authorized_nodes : List (Bytes × String)
  counter_db : List (Bytes × Nat)
  approved_firmware : List Bytes
  deriving DecidableEq, Repr

/-- `self.counter_db.get(hw, 0)` — last accepted counter, 0 if never
seen. -/
def lastCounter (st : VState) (hw : Bytes) : Nat :=
  (lookupB hw st.counter_db).getD 0

/-- `NEXUS_RCT_DOMAIN = b"NEXUS_RCT_V1"` — receipt digest domain tag
(ASCII bytes). -/
def NEXUS_RCT_DOMAIN : Bytes :=
  "NEXUS_RCT_V1".toList.map Char.toNat

/-- Check 1: identity allowlist membership. -/
def checkIdentity (st : VState) (r : Receipt) : Except VError Unit :=
  if (lookupB r.hardware_identity st.authorized_nodes).isSome then .ok ()
  else .error (.unauthorizedHardware (r.hardware_identity.take 8))

/-- Check 2: firmware governance membership. -/
def checkFirmware (st : VState) (r : Receipt) : Except VError Unit :=
  if r.firmware_hash ∈ st.approved_firmware then .ok ()
  else .error (.unapprovedFirmware (r.firmware_hash.take 8))

/-- Check 3: strict counter monotonicity; equality is a replay. -/
def checkMonotonicity (st : VState) (r : Receipt) : Except VError Unit :=
  if r.counter ≤ lastCounter st r.hardware_identity then
    .error (.replayDetected r.counter (lastCounter st r.hardware_identity))
  else .ok ()

/-- Receipt material hashed by check 4:
`NEXUS_RCT_V1 || hardware_identity || firmware_hash || execution_hash ||
counter_be`. -/
def receiptMaterial (r : Receipt) : Bytes :=
  NEXUS_RCT_DOMAIN ++ r.hardware_identity ++ r.firmware_hash ++
    r.execution_hash ++ be64 r.counter

/-- Check 4: recompute the canonical digest and compare byte-for-byte.
A counter `≥ 2^64` would make `to_bytes(8)` raise `OverflowError`
(unreachable for parsed receipts, which are range-checked). -/
def checkDigest (kec : Bytes → Bytes) (r : Receipt) : Except VError Unit :=
  if r.counter ≥ 2 ^ 64 then .error (.typeFault "int too big to convert")
  else if kec (receiptMaterial r) = r.receipt_digest then .ok ()
  else .error (.digestMismatch (kec (receiptMaterial r)) r.receipt_digest)

/-- The post-parse verification pipeline of `verify_attestation`: the four
checks in their fixed fail-fast order, then — only on full success — the
`counter_db` update. -/
def verifyReceipt (kec : Bytes → Bytes) (st : VState) (r : Receipt) :
    Except VError Unit × VState :=
  match checkIdentity st r with
  | .error e => (.error e, st)
  | .ok _ =>
    match checkFirmware st r with
    | .error e => (.error e, st)
    | .ok _ =>
      match checkMonotonicity st r with
      | .error e => (.error e, st)
      | .ok _ =>
        match checkDigest kec r with
        | .error e => (.error e, st)
        | .ok _ =>
            (.ok (), { st with
              counter_db := insertB r.hardware_identity r.counter st.counter_db })

/-- `verify_attestation`: parse, run the four checks, update state on
success.  The surrounding `except Exception` handler turns every failure
into a `(False, message)` return — here the `Except.error` constructor —
so no input raises an uncaught fault. -/
def verify_attestation (kec : Bytes → Bytes) (jp : String → Option JDoc)
    (st : VState) (blob : String) : Except VError Unit × VState :=
  match parseReceipt jp blob with
  | .error e => (.error e, st)
  | .ok r => verifyReceipt kec st r

/-- Left-to-right removal of every (non-overlapping) occurrence of the
two-character sequence `0x`, as in Python `s.replace("0x", "")`. -/
def remove0x : List Char → List Char
  | [] => []
  | '0' :: 'x' :: rest => remove0x rest
  | c :: rest => c :: remove0x rest

/-- Python `hex_string.replace("0x", "")` (removes every occurrence). -/
def pyReplace0x (s : String) : String :=
  ⟨remove0x s.toList⟩

/-- `add_authorized_node`: decode the hex identity, insert into the
allowlist.  A hex decode failure raises before any mutation, leaving the
store unchanged. -/
def add_authorized_node (st : VState) (hardware_identity_hex : String)
    (node_name : String) : VState :=
  match bytesFromHex (pyReplace0x hardware_identity_hex) with
  | none => st
  | some hw => { st with authorized_nodes := insertB hw node_name st.authorized_nodes }

/-- `add_approved_firmware`: decode the hex hash, add to the approved
set.  A hex decode failure raises before any mutation. -/
def add_approved_firmware (st : VState) (firmware_hash_hex : String) : VState :=
  match bytesFromHex (pyReplace0x firmware_hash_hex) with
  | none => st
  | some fw => { st with approved_firmware := setAdd fw st.approved_firmware }

/-- The hardware identity seeded into the allowlist by
`NexusVerifier.__init__`. -/
def initHW : Bytes :=
  (bytesFromHex "52fdfc072182654f163f5f0f0f0f0f0f0f0f0f0f0f0f0f0f0f0f0f0f0f0f0f0f").getD []

/-- The firmware hash seeded into the approved set by
`NexusVerifier.__init__`. -/
def initFW : Bytes :=
  (bytesFromHex "1234567890abcdef1234567890abcdef1234567890abcdef1234567890abcdef").getD []

/-- A freshly constructed `NexusVerifier`. -/
def initState : VState :=
  { authorized_nodes := [(initHW, "Alpha_Node_S3")]
    counter_db := []
    approved_firmware := [initFW] }

/-- The operations a client may run against a verifier instance. -/
inductive Op where
  | addNode (hardware_identity_hex node_name : String)
  | addFirmware (firmware_hash_hex : String)
  | verify (blob : String)
  deriving DecidableEq, Repr

/-- One operation applied to the store.  A `verify` call only observes the
state component of `verify_attestation`. -/
def applyOp (kec : Bytes → Bytes) (jp : String → Option JDoc)
    (st : VState) : Op → VState
  | .addNode hexId name => add_authorized_node st hexId name
  | .addFirmware hexFw => add_approved_firmware st hexFw
  | .verify blob => (verify_attestation kec jp st blob).2

/-- A finite sequence of operations from a given store. -/
def runOps (kec : Bytes → Bytes) (jp : String → Option JDoc)
    (st : VState) : List Op → VState
  | [] => st
  | op :: rest => runOps kec jp (applyOp kec jp st op) rest

/-- `generate_test_receipt` (byte-level): builds the same receipt material
as the verifier's check 4 and returns a receipt whose claimed digest is
its Keccak-256. -/
def generate_test_receipt (kec : Bytes → Bytes) (hw fw ex : Bytes)
    (counter : Nat) : Receipt :=
  { hardware_identity := hw
    firmware_hash := fw
    execution_hash := ex
    counter := counter
    receipt_digest := kec (NEXUS_RCT_DOMAIN ++ hw ++ fw ++ ex ++ be64 counter) }

namespace Bench

/-- `DOMAIN = b"anchor_RCT_V1"` of `scripts/benchmark_receipts.py`. -/
def DOMAIN : Bytes :=
  "anchor_RCT_V1".toList.map Char.toNat

/-- `_u64be`: 8-byte big-endian encoding, rejecting values outside
uint64. -/
def u64be (x : Nat) : Except String Bytes :=
  if x < 2 ^ 64 then .ok (be64 x) else .error "counter must fit into uint64"

/-- Chain-scoped digest of the benchmark script:
`DOMAIN || chain_id_be || hw || fw || exec || counter_be`. -/
def compute_digest (kec : Bytes → Bytes) (chain_id : Nat) (hw_id fw_hash exec_hash : Bytes)
    (counter : Nat) : Except String Bytes := do
  let cb ← u64be chain_id
  let nb ← u64be counter
  pure (kec (DOMAIN ++ cb ++ hw_id ++ fw_hash ++ exec_hash ++ nb))

/-- `b"exec:"` tag of `exec_hash_for`. -/
def execTag : Bytes :=
  "exec:".toList.map Char.toNat

/-- `exec_hash_for`: Keccak of `b"exec:" || counter_be`. -/
def exec_hash_for (kec : Bytes → Bytes) (counter : Nat) : Except String Bytes := do
  let nb ← u64be counter
  pure (kec (execTag ++ nb))

/-- `pack_v1`: `version_byte(1) || hw(32) || fw(32) || exec(32) ||
counter_be(8) || claimed_digest(32)`; raises unless the packed record is
exactly 137 bytes.  The `chain_id` argument is accepted but not packed,
as in the source. -/
def pack_v1 (chain_id : Nat) (hw_id fw_hash exec_hash : Bytes) (counter : Nat)
    (claimed_digest : Bytes) : Except String Bytes := do
  let nb ← u64be counter
  let packed := [1] ++ hw_id ++ fw_hash ++ exec_hash ++ nb ++ claimed_digest
  if packed.length = 137 then pure packed
  else .error "packed receipt length mismatch"

/-- `make_packed_batch`: records for counters `start, start+1, ...,
start+n-1`, concatenated in order with no delimiter. -/
def make_packed_batch (kec : Bytes → Bytes) (chain_id : Nat) (hw_id fw_hash : Bytes)
    (start_counter : Nat) : Nat → Except String Bytes
  | 0 => .ok []
  | m + 1 => do
      let pre ← make_packed_batch kec chain_id hw_id fw_hash start_counter m
      let counter := start_counter + m
      let ex ← exec_hash_for kec counter
      let d ← compute_digest kec chain_id hw_id fw_hash ex counter
      let record ← pack_v1 chain_id hw_id fw_hash ex counter d
      pure (pre ++ record)

/-- The single packed record for a given counter, written out in full:
used to state that a batch is the in-order concatenation of its
records. -/
def packedRecord (kec : Bytes → Bytes) (chain_id : Nat) (hw_id fw_hash : Bytes)
    (counter : Nat) : Bytes :=
  [1] ++ hw_id ++ fw_hash ++ kec (execTag ++ be64 counter) ++ be64 counter ++
    kec (DOMAIN ++ be64 chain_id ++ hw_id ++ fw_hash ++ kec (execTag ++ be64 counter) ++ be64 counter)

end Bench

/-! ### Result classification and spec-side conditions -/

/-- `true` exactly on the failures that `_parse_receipt` catches and
wraps as "Invalid receipt format" (`MalformedReceipt`). -/
def isMalformedE {α : Type} : Except VError α → Bool
  | .error (.malformedReceipt _) => true
  | _ => false

/-- The field value is absent or a JSON string. -/
def strOrAbsent (o : Option JVal) : Bool :=
  match o with
  | none => true
  | some (.jstr _) => true
  | some _ => false

/-- The counter field is absent or one of the value kinds `int(x)`
handles without a `TypeError`: an integer, a string (parsed as decimal),
or a boolean (coerced to 0 or 1). -/
def counterTypeOk (o : Option JVal) : Bool :=
  match o with
  | none => true
  | some (.jint _) => true
  | some (.jstr _) => true
  | some (.jbool _) => true
  | some (.jother _) => false

/-- Every present field of the record has a type the codec handles
without an escaping `TypeError`/`AttributeError`: strings for the hex
fields; an integer, string or boolean for the counter. -/
def wellTypedFields (fs : List (String × JVal)) : Bool :=
  strOrAbsent (jget fs "hardware_identity") && strOrAbsent (jget fs "firmware_hash") &&
    strOrAbsent (jget fs "execution_hash") && strOrAbsent (jget fs "receipt_digest") &&
    counterTypeOk (jget fs "counter")

/-- The string is a hex encoding (optional `0x` marker) of exactly 32
bytes. -/
def hex32Ok (s : String) : Bool :=
  match bytesFromHex (strip0x s) with
  | some bs => bs.length == 32
  | none => false

/-- A required hex field is malformed: absent, non-hex, or not 32
bytes. -/
def reqHexBad (o : Option JVal) : Bool :=
  match o with
  | none => true
  | some (.jstr s) => !hex32Ok s
  | some _ => false

/-- The firmware field is malformed: present, truthy, and not a 32-byte
hex string (an absent or falsy value is silently defaulted, not an
error). -/
def fwBad (o : Option JVal) : Bool :=
  match o with
  | none => false
  | some v =>
      if truthy v then
        match v with
        | .jstr s => !hex32Ok s
        | _ => false
      else false

/-- The counter field is malformed: absent, a non-numeric string,
negative, or above `2^64 - 1`.  A numeric string is parsed and then
range-checked like an integer; a boolean coerces to 0 or 1 and is never
malformed. -/
def counterBad (o : Option JVal) : Bool :=
  match o with
  | none => true
  | some (.jint n) => decide (n < 0) || decide (n > (2 ^ 64 - 1 : Int))
  | some (.jstr s) =>
      match strToInt? s with
      | none => true
      | some n => decide (n < 0) || decide (n > (2 ^ 64 - 1 : Int))
  | some _ => false

/-- The corrected malformation condition for a well-typed record. -/
def malformedCond (fs : List (String × JVal)) : Bool :=
  reqHexBad (jget fs "hardware_identity") || fwBad (jget fs "firmware_hash") ||
    reqHexBad (jget fs "execution_hash") || reqHexBad (jget fs "receipt_digest") ||
    counterBad (jget fs "counter")

/-- The claim's own wording of one disjunct: "some hex field decodes to a
length other than 32 bytes" — a present hex-string field whose decode
succeeds with a length that is not 32. -/
def specHexLenBad (o : Option JVal) : Bool :=
  match o with
  | some (.jstr s) =>
      (match bytesFromHex (strip0x s) with
       | some bs => !(bs.length == 32)
       | none => false)
  | _ => false

/-- The claim's own wording: "the counter is absent, negative, or exceeds
2^64-1". -/
def specCounterBad (o : Option JVal) : Bool :=
  match o with
  | none => true
  | some (.jint n) => decide (n < 0) || decide (n > (2 ^ 64 - 1 : Int))
  | _ => false

/-- The malformation condition exactly as the claim states it: some hex
field decodes to a length other than 32 bytes, or the counter is absent,
negative, or exceeds `2^64 - 1`, or the wrapping container is not
parseable as JSON. -/
def specC7cond (d : Option JDoc) : Bool :=
  match d with
  | none => true
  | some (.jobj fs) =>
      specHexLenBad (jget fs "hardware_identity") || specHexLenBad (jget fs "firmware_hash") ||
        specHexLenBad (jget fs "execution_hash") || specHexLenBad (jget fs "receipt_digest") ||
        specCounterBad (jget fs "counter")
  | some .jnonobj => false

/-! ### Concrete witness material -/

/-- A concrete stand-in digest engine (any function works: the theorems
are quantified over the engine). -/
def kec0 : Bytes → Bytes := fun _ => List.replicate 32 0

/-- A second, different stand-in digest engine. -/
def kec1 : Bytes → Bytes := fun _ => List.replicate 32 1

/-- Hex of the initially authorized hardware identity. -/
def hwHex0 : String := "52fdfc072182654f163f5f0f0f0f0f0f0f0f0f0f0f0f0f0f0f0f0f0f0f0f0f0f"

/-- Hex of the initially approved firmware hash. -/
def fwHex0 : String := "1234567890abcdef1234567890abcdef1234567890abcdef1234567890abcdef"

/-- Hex of the example execution hash from the repository's test
receipt. -/
def exHex0 : String := "deadbeefcafebabe000000000000000000000000000000000000000000000001"

/-- 64 zero hex characters: the 32-zero-byte digest claimed by receipts
verified under `kec0`. -/
def zeroHex : String := "0000000000000000000000000000000000000000000000000000000000000000"

/-- The example execution hash as bytes. -/
def exBytes0 : Bytes := (bytesFromHex exHex0).getD []

/-- A receipt that is valid for `initState` under the engine `kec0`. -/
def r0 : Receipt :=
  { hardware_identity := initHW
    firmware_hash := initFW
    execution_hash := exBytes0
    counter := 1
    receipt_digest := List.replicate 32 0 }

/-- `r0` with a forged claimed digest. -/
def rBadDig : Receipt :=
  { r0 with receipt_digest := List.replicate 32 1 }

/-- The store after `initState` accepts `r0`. -/
def st1 : VState :=
  { authorized_nodes := [(initHW, "Alpha_Node_S3")]
    counter_db := [(initHW, 1)]
    approved_firmware := [initFW] }

/-- A store with an empty allowlist. -/
def stEmpty : VState :=
  { authorized_nodes := [], counter_db := [], approved_firmware := [] }

/-- A JSON decoder that fails on every input (unparseable container). -/
def jpNone : String → Option JDoc := fun _ => none

/-- Record with every required field but no `firmware_hash`. -/
def fieldsC6 : List (String × JVal) :=
  [("hardware_identity", .jstr hwHex0), ("execution_hash", .jstr exHex0),
   ("receipt_digest", .jstr zeroHex), ("counter", .jint 1)]

/-- Decoder returning the firmware-less record for every input. -/
def jpC6 : String → Option JDoc := fun _ => some (.jobj fieldsC6)

/-- The receipt `_parse_receipt` produces from `fieldsC6`: the firmware
hash is the silently substituted 32-zero-byte placeholder. -/
def rC6 : Receipt :=
  { hardware_identity := initHW
    firmware_hash := List.replicate 32 0
    execution_hash := exBytes0
    counter := 1
    receipt_digest := List.replicate 32 0 }

/-- Record with no `hardware_identity` field but all other fields valid:
the parse fails with the wrapped `KeyError`, a condition the claim's list
does not contain. -/
def fieldsC7 : List (String × JVal) :=
  [("execution_hash", .jstr exHex0), ("receipt_digest", .jstr zeroHex), ("counter", .jint 1)]

/-- Decoder returning the identity-less record for every input. -/
def jpC7 : String → Option JDoc := fun _ => some (.jobj fieldsC7)

/-- A second authorized hardware identity. -/
def hwB : Bytes := List.replicate 32 255

/-- A store authorizing two nodes but approving no firmware. -/
def stC8 : VState :=
  { authorized_nodes := [(initHW, "Alpha_Node_S3"), (hwB, "Beta_Node")]
    counter_db := []
    approved_firmware := [] }

/-- First receipt with unapproved firmware. -/
def rC8a : Receipt :=
  { hardware_identity := initHW
    firmware_hash := initFW
    execution_hash := exBytes0
    counter := 5
    receipt_digest := List.replicate 32 0 }

/-- Second receipt with the same unapproved firmware but a different
hardware identity and counter. -/
def rC8b : Receipt :=
  { hardware_identity := hwB
    firmware_hash := initFW
    execution_hash := exBytes0
    counter := 9
    receipt_digest := List.replicate 32 0 }

/-- Record with all five fields, valid for `initState` under `kec0`. -/
def fieldsOk : List (String × JVal) :=
  [("hardware_identity", .jstr hwHex0), ("firmware_hash", .jstr fwHex0),
   ("execution_hash", .jstr exHex0), ("receipt_digest", .jstr zeroHex), ("counter", .jint 1)]

/-- Decoder returning the valid record for every input. -/
def jpOk : String → Option JDoc := fun _ => some (.jobj fieldsOk)

/-- The valid record with its counter supplied as the non-numeric string
`"abc"`: `int("abc")` raises `ValueError`, which the codec catches and
wraps as MalformedReceipt. -/
def fieldsStrCnt : List (String × JVal) :=
  [("hardware_identity", .jstr hwHex0), ("firmware_hash", .jstr fwHex0),
   ("execution_hash", .jstr exHex0), ("receipt_digest", .jstr zeroHex),
   ("counter", .jstr "abc")]

/-- One verification call against the fresh store. -/
def opsC10 : List Op := [.verify "receipt"]

/-- The two-record packed batch used to witness the batch-length
theorem. -/
def batch2 : Bytes :=
  (((List.range 2).map (fun i => Bench.packedRecord kec0 421614 initHW initFW (1 + i)))).flatten

/-! ### Helper lemmas -/

lemma except_bind_error {ε α β : Type} (e : ε) (f : α → Except ε β) :
    (Except.error e : Except ε α) >>= f = .error e := rfl

lemma except_bind_ok {ε α β : Type} (a : α) (f : α → Except ε β) :
    (Except.ok a : Except ε α) >>= f = f a := rfl

lemma lookupB_insertB {α : Type} (k k' : Bytes) (v : α) (d : List (Bytes × α)) :
    lookupB k' (insertB k v d) = if k = k' then some v else lookupB k' d := by
  induction d with
  | nil => simp [insertB, lookupB]
  | cons hd tl ih =>
      obtain ⟨k0, v0⟩ := hd
      by_cases h0 : k0 = k
      · subst h0
        simp only [insertB, if_pos rfl, lookupB]
        by_cases h1 : k0 = k' <;> simp [h1]
      · simp only [insertB, if_neg h0, lookupB, ih]
        by_cases h1 : k0 = k'
        · subst h1
          have hk : ¬k = k0 := fun h => h0 h.symm
          simp [hk]
        · simp [h1]

lemma checkIdentity_ok_iff (st : VState) (r : Receipt) :
    checkIdentity st r = .ok () ↔ (lookupB r.hardware_identity st.authorized_nodes).isSome = true := by
  unfold checkIdentity
  split_ifs with h <;> simp [h]

lemma checkFirmware_ok_iff (st : VState) (r : Receipt) :
    checkFirmware st r = .ok () ↔ r.firmware_hash ∈ st.approved_firmware := by
  unfold checkFirmware
  split_ifs with h <;> simp [h]

lemma checkMonotonicity_ok_iff (st : VState) (r : Receipt) :
    checkMonotonicity st r = .ok () ↔ lastCounter st r.hardware_identity < r.counter := by
  unfold checkMonotonicity
  split_ifs with h
  · constructor
    · intro he
      exact absurd he (by simp)
    · intro hlt
      omega
  · constructor
    · intro _
      omega
    · intro _
      rfl

lemma checkDigest_ok_iff (kec : Bytes → Bytes) (r : Receipt) :
    checkDigest kec r = .ok () ↔ r.counter < 2 ^ 64 ∧ kec (receiptMaterial r) = r.receipt_digest := by
  unfold checkDigest
  split_ifs with h1 h2
  · constructor
    · intro he
      exact absurd he (by simp)
    · rintro ⟨hlt, -⟩
      omega
  · constructor
    · intro _
      exact ⟨by omega, h2⟩
    · intro _
      rfl
  · constructor
    · intro he
      exact absurd he (by simp)
    · rintro ⟨-, he⟩
      exact absurd he h2

lemma verifyReceipt_error_state (kec : Bytes → Bytes) (st : VState) (r : Receipt)
    (e : VError) (st' : VState) (h : verifyReceipt kec st r = (.error e, st')) : st' = st := by
  unfold verifyReceipt at h
  cases hI : checkIdentity st r with
  | error eI => rw [hI] at h; exact (Prod.mk.injEq _ _ _ _ ▸ h).2.symm
  | ok uI =>
      rw [hI] at h
      cases hF : checkFirmware st r with
      | error eF => rw [hF] at h; exact (Prod.mk.injEq _ _ _ _ ▸ h).2.symm
      | ok uF =>
          rw [hF] at h
          cases hM : checkMonotonicity st r with
          | error eM => rw [hM] at h; exact (Prod.mk.injEq _ _ _ _ ▸ h).2.symm
          | ok uM =>
              rw [hM] at h
              cases hD : checkDigest kec r with
              | error eD => rw [hD] at h; exact (Prod.mk.injEq _ _ _ _ ▸ h).2.symm
              | ok uD =>
                  rw [hD] at h
                  exact absurd (Prod.mk.injEq _ _ _ _ ▸ h).1 (by simp)

lemma verifyReceipt_ok_state (kec : Bytes → Bytes) (st : VState) (r : Receipt)
    (st' : VState) (h : verifyReceipt kec st r = (.ok (), st')) :
    st' = { st with counter_db := insertB r.hardware_identity r.counter st.counter_db } ∧
      (lookupB r.hardware_identity st.authorized_nodes).isSome = true := by
  unfold verifyReceipt at h
  cases hI : checkIdentity st r with
  | error eI => rw [hI] at h; exact absurd (Prod.mk.injEq _ _ _ _ ▸ h).1 (by simp)
  | ok uI =>
      rw [hI] at h
      cases hF : checkFirmware st r with
      | error eF => rw [hF] at h; exact absurd (Prod.mk.injEq _ _ _ _ ▸ h).1 (by simp)
      | ok uF =>
          rw [hF] at h
          cases hM : checkMonotonicity st r with
          | error eM => rw [hM] at h; exact absurd (Prod.mk.injEq _ _ _ _ ▸ h).1 (by simp)
          | ok uM =>
              rw [hM] at h
              cases hD : checkDigest kec r with
              | error eD => rw [hD] at h; exact absurd (Prod.mk.injEq _ _ _ _ ▸ h).1 (by simp)
              | ok uD =>
                  rw [hD] at h
                  refine ⟨(Prod.mk.injEq _ _ _ _ ▸ h).2.symm, ?_⟩
                  cases uI
                  exact (checkIdentity_ok_iff st r).mp hI

/-- Claim C1: a receipt from an authorized node, with approved firmware, a
counter strictly above the last recorded one (0 when never seen), and a
claimed digest equal to the canonical digest of the other four fields, is
accepted, and afterwards the recorded counter for that hardware identity
equals the receipt's counter. -/
theorem verify_accepts_valid_receipt (kec : Bytes → Bytes) (st : VState) (r : Receipt)
    (hid : (lookupB r.hardware_identity st.authorized_nodes).isSome = true)
    (hfw : r.firmware_hash ∈ st.approved_firmware)
    (hmono : lastCounter st r.hardware_identity < r.counter)
    (hrange : r.counter < 2 ^ 64)
    (hdig : r.receipt_digest = kec (receiptMaterial r)) :
    verifyReceipt kec st r =
      (.ok (), { st with counter_db := insertB r.hardware_identity r.counter st.counter_db }) ∧
      lastCounter (verifyReceipt kec st r).2 r.hardware_identity = r.counter := by
  have h1 : checkIdentity st r = .ok () := (checkIdentity_ok_iff st r).mpr hid
  have h2 : checkFirmware st r = .ok () := (checkFirmware_ok_iff st r).mpr hfw
  have h3 : checkMonotonicity st r = .ok () := (checkMonotonicity_ok_iff st r).mpr hmono
  have h4 : checkDigest kec r = .ok () := (checkDigest_ok_iff kec r).mpr ⟨hrange, hdig.symm⟩
  have hv : verifyReceipt kec st r =
      (.ok (), { st with counter_db := insertB r.hardware_identity r.counter st.counter_db }) := by
    unfold verifyReceipt
    rw [h1, h2, h3, h4]
  refine ⟨hv, ?_⟩
  rw [hv]
  simp [lastCounter, lookupB_insertB]

/-- Witness for C1: `initState` accepts the concrete receipt `r0` and
records counter 1 for its hardware identity. -/
theorem verify_accepts_valid_receipt_witness :
    ((lookupB r0.hardware_identity initState.authorized_nodes).isSome = true ∧
      r0.firmware_hash ∈ initState.approved_firmware ∧
      lastCounter initState r0.hardware_identity < r0.counter ∧
      r0.counter < 2 ^ 64 ∧
      r0.receipt_digest = kec0 (receiptMaterial r0)) ∧
    (verifyReceipt kec0 initState r0 =
      (.ok (), { initState with
        counter_db := insertB r0.hardware_identity r0.counter initState.counter_db }) ∧
      lastCounter (verifyReceipt kec0 initState r0).2 r0.hardware_identity = r0.counter) :=
  ⟨⟨by decide, by decide, by decide, by decide, by decide⟩,
    verify_accepts_valid_receipt kec0 initState r0 (by decide) (by decide) (by decide)
      (by decide) (by decide)⟩

/-- Claim C2: a receipt that passes the identity and firmware checks but
whose counter is less than or equal to the last recorded counter —
including an exact resubmission — is rejected as a replay, for every
digest engine (so even a correctly recomputed digest does not help), and
the store is unchanged. -/
theorem replay_always_rejected (kec : Bytes → Bytes) (st : VState) (r : Receipt)
    (hid : (lookupB r.hardware_identity st.authorized_nodes).isSome = true)
    (hfw : r.firmware_hash ∈ st.approved_firmware)
    (hle : r.counter ≤ lastCounter st r.hardware_identity) :
    verifyReceipt kec st r =
      (.error (.replayDetected r.counter (lastCounter st r.hardware_identity)), st) := by
  have h1 : checkIdentity st r = .ok () := (checkIdentity_ok_iff st r).mpr hid
  have h2 : checkFirmware st r = .ok () := (checkFirmware_ok_iff st r).mpr hfw
  have h3 : checkMonotonicity st r =
      .error (.replayDetected r.counter (lastCounter st r.hardware_identity)) := by
    unfold checkMonotonicity
    rw [if_pos hle]
  unfold verifyReceipt
  rw [h1, h2, h3]

/-- Witness for C2: resubmitting `r0` (same counter, correctly recomputed
digest) after `st1` has recorded counter 1 is rejected as a replay. -/
theorem replay_always_rejected_witness :
    ((lookupB r0.hardware_identity st1.authorized_nodes).isSome = true ∧
      r0.firmware_hash ∈ st1.approved_firmware ∧
      r0.counter ≤ lastCounter st1 r0.hardware_identity ∧
      r0.receipt_digest = kec0 (receiptMaterial r0)) ∧
    verifyReceipt kec0 st1 r0 =
      (.error (.replayDetected r0.counter (lastCounter st1 r0.hardware_identity)), st1) :=
  ⟨⟨by decide, by decide, by decide, by decide⟩,
    replay_always_rejected kec0 st1 r0 (by decide) (by decide) (by decide)⟩

/-- Claim C5: a parseable receipt whose hardware identity is not on the
allowlist is rejected at the identity check regardless of the other
fields, and the digest engine is never consulted: the outcome is
identical for every digest engine. -/
theorem unauthorized_rejected_without_digest (kec : Bytes → Bytes) (st : VState) (r : Receipt)
    (hid : lookupB r.hardware_identity st.authorized_nodes = none) :
    verifyReceipt kec st r =
      (.error (.unauthorizedHardware (r.hardware_identity.take 8)), st) ∧
    ∀ kec2 : Bytes → Bytes, verifyReceipt kec st r = verifyReceipt kec2 st r := by
  have h1 : checkIdentity st r = .error (.unauthorizedHardware (r.hardware_identity.take 8)) := by
    unfold checkIdentity
    rw [hid]
    rfl
  have hmain : ∀ kecx : Bytes → Bytes, verifyReceipt kecx st r =
      (.error (.unauthorizedHardware (r.hardware_identity.take 8)), st) := by
    intro kecx
    unfold verifyReceipt
    rw [h1]
  exact ⟨hmain kec, fun kec2 => (hmain kec).trans (hmain kec2).symm⟩

/-- Witness for C5: the empty-allowlist store rejects `r0` with the
unauthorized-hardware error, identically under two different digest
engines. -/
theorem unauthorized_rejected_without_digest_witness :
    (lookupB r0.hardware_identity stEmpty.authorized_nodes = none) ∧
    verifyReceipt kec0 stEmpty r0 =
      (.error (.unauthorizedHardware (r0.hardware_identity.take 8)), stEmpty) ∧
    verifyReceipt kec0 stEmpty r0 = verifyReceipt kec1 stEmpty r0 :=
  ⟨by decide,
   (unauthorized_rejected_without_digest kec0 stEmpty r0 (by decide)).1,
   (unauthorized_rejected_without_digest kec0 stEmpty r0 (by decide)).2 kec1⟩

/-- Claim C3: the digest checked by the verifier is the engine hash of
`domain || hardware_identity || firmware_hash || execution_hash ||
counter_be` in this exact order, with the counter encoded as the 8-byte
big-endian unsigned integer; the check accepts a claimed digest exactly
when it is byte-for-byte equal to this value, and the test-receipt
generator produces exactly this digest. -/
theorem canonical_digest_structure (kec : Bytes → Bytes) (hw fw ex : Bytes) (c : Nat)
    (claimed : Bytes) (hc : c < 2 ^ 64) :
    (checkDigest kec ⟨hw, fw, ex, c, claimed⟩ = .ok () ↔
      claimed = kec (NEXUS_RCT_DOMAIN ++ hw ++ fw ++ ex ++ be64 c)) ∧
    (be64 c).length = 8 ∧
    beVal (be64 c) = c ∧
    (∀ b ∈ be64 c, b < 256) ∧
    checkDigest kec (generate_test_receipt kec hw fw ex c) = .ok () := by
  refine ⟨?_, by simp [be64], ?_, ?_, ?_⟩
  · rw [checkDigest_ok_iff]
    constructor
    · rintro ⟨-, h⟩
      exact h.symm
    · intro h
      exact ⟨hc, h.symm⟩
  · simp only [beVal, be64, List.foldl_cons, List.foldl_nil]
    omega
  · intro b hb
    simp only [be64, List.mem_cons, List.not_mem_nil, or_false] at hb
    rcases hb with rfl | rfl | rfl | rfl | rfl | rfl | rfl | rfl <;>
      exact Nat.mod_lt _ (by norm_num)
  · rw [checkDigest_ok_iff]
    exact ⟨hc, rfl⟩

/-- Witness for C3 at counter 1 with concrete fields (the bounded-byte
conjunct is universally quantified and therefore not restated here). -/
theorem canonical_digest_structure_witness :
    (1 < 2 ^ 64) ∧
    ((checkDigest kec0 ⟨initHW, initFW, exBytes0, 1, List.replicate 32 0⟩ = .ok () ↔
       List.replicate 32 0 = kec0 (NEXUS_RCT_DOMAIN ++ initHW ++ initFW ++ exBytes0 ++ be64 1)) ∧
     (be64 1).length = 8 ∧ beVal (be64 1) = 1 ∧
     checkDigest kec0 (generate_test_receipt kec0 initHW initFW exBytes0 1) = .ok ()) :=
  ⟨by decide, by
    have h := canonical_digest_structure kec0 initHW initFW exBytes0 1
      (List.replicate 32 0) (by decide)
    exact ⟨h.1, h.2.1, h.2.2.1, h.2.2.2.2⟩⟩

/-- Claim C4: a failing verification (parse failure or any failing check)
leaves the store untouched; an accepting verification changes only the
`counter_db` entry for the receipt's hardware identity, leaving the
allowlist, the approved-firmware set and every other counter entry
unchanged. -/
theorem verify_frame_conditions :
    (∀ (kec : Bytes → Bytes) (jp : String → Option JDoc) (st : VState) (blob : String)
        (e : VError) (st' : VState),
        verify_attestation kec jp st blob = (.error e, st') → st' = st) ∧
    (∀ (kec : Bytes → Bytes) (st : VState) (r : Receipt) (st' : VState),
        verifyReceipt kec st r = (.ok (), st') →
          st'.authorized_nodes = st.authorized_nodes ∧
          st'.approved_firmware = st.approved_firmware ∧
          lookupB r.hardware_identity st'.counter_db = some r.counter ∧
          ∀ hw : Bytes, hw ≠ r.hardware_identity →
            lookupB hw st'.counter_db = lookupB hw st.counter_db) := by
  constructor
  · intro kec jp st blob e st' h
    unfold verify_attestation at h
    cases hp : parseReceipt jp blob with
    | error ep =>
        rw [hp] at h
        exact (Prod.mk.injEq _ _ _ _ ▸ h).2.symm
    | ok r =>
        rw [hp] at h
        exact verifyReceipt_error_state kec st r e st' h
  · intro kec st r st' h
    obtain ⟨hst, -⟩ := verifyReceipt_ok_state kec st r st' h
    subst hst
    refine ⟨rfl, rfl, ?_, ?_⟩
    · simp [lookupB_insertB]
    · intro hw hne
      simp only [lookupB_insertB]
      rw [if_neg (fun hh => hne hh.symm)]

/-- Witness for C4: a decoder failure leaves `initState` unchanged, and
the accepting run `initState → st1` on `r0` preserves the allowlist and
firmware set while recording only `r0`'s counter. -/
theorem verify_frame_conditions_witness :
    ((verify_attestation kec0 jpNone initState "x").2 = initState) ∧
    st1.authorized_nodes = initState.authorized_nodes ∧
    st1.approved_firmware = initState.approved_firmware ∧
    lookupB r0.hardware_identity st1.counter_db = some r0.counter ∧
    lookupB hwB st1.counter_db = lookupB hwB initState.counter_db := by
  have h1 := verify_frame_conditions.1 kec0 jpNone initState "x"
    (.malformedReceipt "Expecting value") ((verify_attestation kec0 jpNone initState "x").2)
    (by decide)
  have h2 := verify_frame_conditions.2 kec0 initState r0 st1 (by decide)
  exact ⟨h1, h2.1, h2.2.1, h2.2.2.1, h2.2.2.2 hwB (by decide)⟩

lemma verifyReceipt_snd_cases (kec : Bytes → Bytes) (st : VState) (r : Receipt) :
    (verifyReceipt kec st r).2 = st ∨
      ((lookupB r.hardware_identity st.authorized_nodes).isSome = true ∧
        (verifyReceipt kec st r).2 =
          { st with counter_db := insertB r.hardware_identity r.counter st.counter_db }) := by
  cases hv : verifyReceipt kec st r with
  | mk res st' =>
      cases res with
      | error e =>
          left
          have := verifyReceipt_error_state kec st r e st' hv
          simpa using this
      | ok u =>
          right
          cases u
          obtain ⟨hst, hid⟩ := verifyReceipt_ok_state kec st r st' hv
          exact ⟨hid, by simpa using hst⟩

lemma applyOp_authorized_mono (kec : Bytes → Bytes) (jp : String → Option JDoc)
    (st : VState) (op : Op) (hw : Bytes)
    (h : (lookupB hw st.authorized_nodes).isSome = true) :
    (lookupB hw (applyOp kec jp st op).authorized_nodes).isSome = true := by
  cases op with
  | addNode hexId name =>
      simp only [applyOp, add_authorized_node]
      cases hb : bytesFromHex (pyReplace0x hexId) with
      | none => exact h
      | some k =>
          simp only [lookupB_insertB]
          by_cases hk : k = hw
          · rw [if_pos hk]
            rfl
          · rw [if_neg hk]
            exact h
  | addFirmware hexFw =>
      simp only [applyOp, add_approved_firmware]
      cases hb : bytesFromHex (pyReplace0x hexFw) with
      | none => exact h
      | some k => exact h
  | verify blob =>
      simp only [applyOp, verify_attestation]
      cases hp : parseReceipt jp blob with
      | error e => exact h
      | ok r =>
          rcases verifyReceipt_snd_cases kec st r with hsame | ⟨-, hupd⟩
          · rw [hsame]
            exact h
          · rw [hupd]
            exact h

/-- Every counter entry belongs to an authorized identity. -/
def StoreInv (st : VState) : Prop :=
  ∀ hw : Bytes, (lookupB hw st.counter_db).isSome = true →
    (lookupB hw st.authorized_nodes).isSome = true

lemma applyOp_preserves_inv (kec : Bytes → Bytes) (jp : String → Option JDoc)
    (st : VState) (op : Op) (hinv : StoreInv st) : StoreInv (applyOp kec jp st op) := by
  intro hw hcnt
  cases op with
  | addNode hexId name =>
      apply applyOp_authorized_mono
      apply hinv
      simp only [applyOp, add_authorized_node] at hcnt
      cases hb : bytesFromHex (pyReplace0x hexId) with
      | none => rw [hb] at hcnt; exact hcnt
      | some k => rw [hb] at hcnt; exact hcnt
  | addFirmware hexFw =>
      apply applyOp_authorized_mono
      apply hinv
      simp only [applyOp, add_approved_firmware] at hcnt
      cases hb : bytesFromHex (pyReplace0x hexFw) with
      | none => rw [hb] at hcnt; exact hcnt
      | some k => rw [hb] at hcnt; exact hcnt
  | verify blob =>
      cases hp : parseReceipt jp blob with
      | error e =>
          simp only [applyOp, verify_attestation, hp] at hcnt ⊢
          exact hinv hw hcnt
      | ok r =>
          simp only [applyOp, verify_attestation, hp] at hcnt ⊢
          rcases verifyReceipt_snd_cases kec st r with hsame | ⟨hid, hupd⟩
          · rw [hsame] at hcnt ⊢
            exact hinv hw hcnt
          · rw [hupd] at hcnt ⊢
            simp only [lookupB_insertB] at hcnt
            by_cases hk : r.hardware_identity = hw
            · subst hk
              exact hid
            · rw [if_neg hk] at hcnt
              exact hinv hw hcnt

lemma runOps_preserves_inv (kec : Bytes → Bytes) (jp : String → Option JDoc)
    (ops : List Op) (st : VState) (hinv : StoreInv st) :
    StoreInv (runOps kec jp st ops) := by
  induction ops generalizing st with
  | nil => exact hinv
  | cons op rest ih =>
      exact ih (applyOp kec jp st op) (applyOp_preserves_inv kec jp st op hinv)

/-- Claim C10: from a freshly constructed verifier, after any finite
sequence of node additions, firmware approvals and verification calls,
every identity with a recorded counter is on the allowlist; and no
operation in this set removes an allowlist entry. -/
theorem counter_recorded_only_for_authorized :
    (∀ (kec : Bytes → Bytes) (jp : String → Option JDoc) (ops : List Op) (hw : Bytes),
        (lookupB hw (runOps kec jp initState ops).counter_db).isSome = true →
        (lookupB hw (runOps kec jp initState ops).authorized_nodes).isSome = true) ∧
    (∀ (kec : Bytes → Bytes) (jp : String → Option JDoc) (st : VState) (op : Op) (hw : Bytes),
        (lookupB hw st.authorized_nodes).isSome = true →
        (lookupB hw (applyOp kec jp st op).authorized_nodes).isSome = true) := by
  constructor
  · intro kec jp ops hw
    have hinit : StoreInv initState := by
      intro hw0 h0
      simp [initState, lookupB] at h0
    exact runOps_preserves_inv kec jp ops initState hinit hw
  · exact applyOp_authorized_mono

/-- Witness for C10: one successful verification against the fresh store
records a counter for the seeded identity, which is indeed on the
allowlist afterwards; and a firmware approval preserves the allowlist
entry. -/
theorem counter_recorded_only_for_authorized_witness :
    ((lookupB initHW (runOps kec0 jpOk initState opsC10).counter_db).isSome = true) ∧
    ((lookupB initHW (runOps kec0 jpOk initState opsC10).authorized_nodes).isSome = true) ∧
    ((lookupB initHW (applyOp kec0 jpOk initState (.addFirmware "ff")).authorized_nodes).isSome
      = true) :=
  ⟨by decide,
    counter_recorded_only_for_authorized.1 kec0 jpOk opsC10 initHW (by decide),
    counter_recorded_only_for_authorized.2 kec0 jpOk initState (.addFirmware "ff") initHW
      (by decide)⟩

/-- Counterexample to C6 as stated: on a record with no `firmware_hash`
field, `_parse_receipt` does not surface the absence as a distinct state
— it returns an ordinary `Receipt` whose firmware hash is the silently
substituted 32-zero-byte placeholder, which the verifier then compares
against the approved-firmware set like any other value. -/
theorem firmware_absent_counterexample :
    parseReceipt jpC6 "blob" = .ok rC6 ∧
    rC6.firmware_hash = List.replicate 32 0 ∧
    checkFirmware { stEmpty with approved_firmware := [List.replicate 32 0] } rC6 = .ok () := by
  refine ⟨by decide, by decide, by decide⟩

/-- Amended C6: whenever the `firmware_hash` field is absent and parsing
succeeds, the returned receipt's firmware hash is the 32-zero-byte
placeholder — the absence is not distinguishable from a receipt that
actually carried that value. -/
theorem firmware_absent_silently_defaults (fs : List (String × JVal)) (r : Receipt)
    (hmiss : jget fs "firmware_hash" = none) (hok : parseFields fs = .ok r) :
    r.firmware_hash = List.replicate 32 0 := by
  unfold parseFields at hok
  cases h1 : parseHexField32 (jget fs "hardware_identity") "hardware_identity" with
  | error e =>
      rw [h1, except_bind_error] at hok
      exact absurd hok (by simp)
  | ok hw =>
      rw [h1, except_bind_ok, hmiss] at hok
      simp only [parseFirmware, except_bind_ok] at hok
      cases h3 : parseHexField32 (jget fs "execution_hash") "execution_hash" with
      | error e =>
          rw [h3, except_bind_error] at hok
          exact absurd hok (by simp)
      | ok ex =>
          rw [h3, except_bind_ok] at hok
          cases h4 : parseHexField32 (jget fs "receipt_digest") "receipt_digest" with
          | error e =>
              rw [h4, except_bind_error] at hok
              exact absurd hok (by simp)
          | ok dg =>
              rw [h4, except_bind_ok] at hok
              cases h5 : parseCounter (jget fs "counter") with
              | error e =>
                  rw [h5, except_bind_error] at hok
                  exact absurd hok (by simp)
              | ok c =>
                  rw [h5, except_bind_ok] at hok
                  obtain rfl : Receipt.mk hw (List.replicate 32 0) ex c dg = r :=
                    Except.ok.inj hok
                  rfl

/-- Witness for the amended C6 on the concrete firmware-less record. -/
theorem firmware_absent_silently_defaults_witness :
    (jget fieldsC6 "firmware_hash" = none ∧ parseFields fieldsC6 = .ok rC6) ∧
    rC6.firmware_hash = List.replicate 32 0 :=
  ⟨⟨by decide, by decide⟩,
    firmware_absent_silently_defaults fieldsC6 rC6 (by decide) (by decide)⟩

/-- Counterexample to C8 as stated: two receipts for different hardware
identities and different counters, both carrying the same unapproved
firmware, produce the *identical* rejection value — so that rejection
cannot be carrying the receipt's hardware identity or counter. -/
theorem rejection_payload_counterexample :
    verifyReceipt kec0 stC8 rC8a = (.error (.unapprovedFirmware (initFW.take 8)), stC8) ∧
    verifyReceipt kec0 stC8 rC8b = (.error (.unapprovedFirmware (initFW.take 8)), stC8) ∧
    rC8a.hardware_identity ≠ rC8b.hardware_identity ∧
    rC8a.counter ≠ rC8b.counter := by
  refine ⟨by decide, by decide, by decide, by decide⟩

/-- Amended C8: the four policy rejections are pairwise distinguishable
(distinct error forms), and each carries exactly the data interpolated
into its message: a truncated hardware identity for the identity
rejection, a truncated firmware hash (and neither identity nor counter)
for the firmware rejection, the two counters for the replay rejection,
and the two digests for the digest rejection. -/
theorem rejection_payloads :
    (∀ (st : VState) (r : Receipt), lookupB r.hardware_identity st.authorized_nodes = none →
        checkIdentity st r = .error (.unauthorizedHardware (r.hardware_identity.take 8))) ∧
    (∀ (st : VState) (r : Receipt), r.firmware_hash ∉ st.approved_firmware →
        checkFirmware st r = .error (.unapprovedFirmware (r.firmware_hash.take 8))) ∧
    (∀ (st : VState) (r : Receipt), r.counter ≤ lastCounter st r.hardware_identity →
        checkMonotonicity st r =
          .error (.replayDetected r.counter (lastCounter st r.hardware_identity))) ∧
    (∀ (kec : Bytes → Bytes) (r : Receipt), r.counter < 2 ^ 64 →
        kec (receiptMaterial r) ≠ r.receipt_digest →
        checkDigest kec r =
          .error (.digestMismatch (kec (receiptMaterial r)) r.receipt_digest)) ∧
    (∀ (a b e f : Bytes) (c d : Nat),
        VError.unauthorizedHardware a ≠ .unapprovedFirmware b ∧
        VError.unauthorizedHardware a ≠ .replayDetected c d ∧
        VError.unauthorizedHardware a ≠ .digestMismatch e f ∧
        VError.unapprovedFirmware b ≠ .replayDetected c d ∧
        VError.unapprovedFirmware b ≠ .digestMismatch e f ∧
        VError.replayDetected c d ≠ .digestMismatch e f) := by
  refine ⟨?_, ?_, ?_, ?_, ?_⟩
  · intro st r h
    simp [checkIdentity, h]
  · intro st r h
    simp [checkFirmware, h]
  · intro st r h
    unfold checkMonotonicity
    rw [if_pos h]
  · intro kec r hlt hne
    unfold checkDigest
    rw [if_neg (by omega), if_neg hne]
  · intro a b e f c d
    refine ⟨by simp, by simp, by simp, by simp, by simp, by simp⟩

/-- Witness for the amended C8 on concrete stores and receipts, one per
rejection kind. -/
theorem rejection_payloads_witness :
    (lookupB r0.hardware_identity stEmpty.authorized_nodes = none ∧
      checkIdentity stEmpty r0 = .error (.unauthorizedHardware (r0.hardware_identity.take 8))) ∧
    (r0.firmware_hash ∉ stC8.approved_firmware ∧
      checkFirmware stC8 r0 = .error (.unapprovedFirmware (r0.firmware_hash.take 8))) ∧
    (r0.counter ≤ lastCounter st1 r0.hardware_identity ∧
      checkMonotonicity st1 r0 =
        .error (.replayDetected r0.counter (lastCounter st1 r0.hardware_identity))) ∧
    (rBadDig.counter < 2 ^ 64 ∧ kec0 (receiptMaterial rBadDig) ≠ rBadDig.receipt_digest ∧
      checkDigest kec0 rBadDig =
        .error (.digestMismatch (kec0 (receiptMaterial rBadDig)) rBadDig.receipt_digest)) :=
  ⟨⟨by decide, rejection_payloads.1 stEmpty r0 (by decide)⟩,
   ⟨by decide, rejection_payloads.2.1 stC8 r0 (by decide)⟩,
   ⟨by decide, rejection_payloads.2.2.1 st1 r0 (by decide)⟩,
   ⟨by decide, by decide, rejection_payloads.2.2.2.1 kec0 rBadDig (by decide) (by decide)⟩⟩

lemma packedRecord_length (kec : Bytes → Bytes) (chain_id : Nat) (hw fw : Bytes) (c : Nat)
    (h1 : hw.length = 32) (h2 : fw.length = 32) (hk : ∀ m : Bytes, (kec m).length = 32) :
    (Bench.packedRecord kec chain_id hw fw c).length = 137 := by
  simp [Bench.packedRecord, h1, h2, hk, be64]

/-- Claim C9: a version-1 packed record is
`version_byte(1) || hw(32) || fw(32) || exec(32) || counter_be(8) ||
digest(32)`, exactly 137 bytes; a packed batch of `n` records is their
in-order concatenation with no delimiter, of total length `137 * n`. -/
theorem packed_record_format :
    (∀ (chain_id : Nat) (hw fw ex : Bytes) (c : Nat) (d : Bytes),
        hw.length = 32 → fw.length = 32 → ex.length = 32 → d.length = 32 → c < 2 ^ 64 →
        Bench.pack_v1 chain_id hw fw ex c d = .ok ([1] ++ hw ++ fw ++ ex ++ be64 c ++ d) ∧
        ([1] ++ hw ++ fw ++ ex ++ be64 c ++ d).length = 137) ∧
    (∀ (kec : Bytes → Bytes) (chain_id : Nat) (hw fw : Bytes) (start n : Nat),
        hw.length = 32 → fw.length = 32 → (∀ m : Bytes, (kec m).length = 32) →
        chain_id < 2 ^ 64 → start + n ≤ 2 ^ 64 →
        Bench.make_packed_batch kec chain_id hw fw start n =
          .ok (((List.range n).map
            (fun i => Bench.packedRecord kec chain_id hw fw (start + i))).flatten) ∧
        (((List.range n).map
            (fun i => Bench.packedRecord kec chain_id hw fw (start + i))).flatten).length
          = 137 * n) := by
  constructor
  · intro chain_id hw fw ex c d h1 h2 h3 h4 hc
    have hlen : ([1] ++ hw ++ fw ++ ex ++ be64 c ++ d).length = 137 := by
      simp [h1, h2, h3, h4, be64]
    refine ⟨?_, hlen⟩
    simp only [Bench.pack_v1, Bench.u64be, if_pos hc, except_bind_ok]
    rw [if_pos hlen]
    rfl
  · intro kec chain_id hw fw start n h1 h2 hk hc hsum
    induction n with
    | zero => simp [Bench.make_packed_batch]
    | succ m ih =>
        have hsum' : start + m ≤ 2 ^ 64 := by omega
        have hcm : start + m < 2 ^ 64 := by omega
        obtain ⟨ihEq, ihLen⟩ := ih hsum'
        have hrec : (Bench.packedRecord kec chain_id hw fw (start + m)).length = 137 :=
          packedRecord_length kec chain_id hw fw (start + m) h1 h2 hk
        have hflat : ((List.range (m + 1)).map
              (fun i => Bench.packedRecord kec chain_id hw fw (start + i))).flatten =
            ((List.range m).map
              (fun i => Bench.packedRecord kec chain_id hw fw (start + i))).flatten ++
              Bench.packedRecord kec chain_id hw fw (start + m) := by
          rw [List.range_succ]
          simp
        have hlen137 : ([1] ++ hw ++ fw ++ kec (Bench.execTag ++ be64 (start + m)) ++
            be64 (start + m) ++
            kec (Bench.DOMAIN ++ be64 chain_id ++ hw ++ fw ++
              kec (Bench.execTag ++ be64 (start + m)) ++ be64 (start + m))).length = 137 := by
          simp [h1, h2, hk, be64]
        constructor
        · simp only [Bench.make_packed_batch]
          rw [ihEq]
          simp only [except_bind_ok, Bench.exec_hash_for, Bench.compute_digest,
            Bench.pack_v1, Bench.u64be, if_pos hcm, if_pos hc, pure_bind]
          rw [if_pos hlen137]
          simp only [pure_bind]
          rw [hflat]
          rfl
        · rw [hflat]
          simp only [List.length_append, ihLen, hrec]
          omega

/-- Witness for C9: the concrete single record and the concrete
two-record batch. -/
theorem packed_record_format_witness :
    (Bench.pack_v1 421614 initHW initFW exBytes0 1 (List.replicate 32 0) =
      .ok ([1] ++ initHW ++ initFW ++ exBytes0 ++ be64 1 ++ List.replicate 32 0) ∧
     ([1] ++ initHW ++ initFW ++ exBytes0 ++ be64 1 ++ List.replicate 32 0).length = 137) ∧
    (Bench.make_packed_batch kec0 421614 initHW initFW 1 2 = .ok batch2 ∧
     batch2.length = 137 * 2) :=
  ⟨packed_record_format.1 421614 initHW initFW exBytes0 1 (List.replicate 32 0)
      (by decide) (by decide) (by decide) (by decide) (by decide),
   packed_record_format.2 kec0 421614 initHW initFW 1 2 (by decide) (by decide)
      (fun m => by simp [kec0]) (by decide) (by decide)⟩

lemma parseHexField32_spec (o : Option JVal) (name : String) (h : strOrAbsent o = true) :
    (reqHexBad o = true ∧ ∃ d, parseHexField32 o name = .error (.malformedReceipt d)) ∨
    (reqHexBad o = false ∧ ∃ bs, parseHexField32 o name = .ok bs) := by
  cases o with
  | none => exact Or.inl ⟨rfl, name, rfl⟩
  | some v =>
      cases v with
      | jstr s =>
          cases hbs : bytesFromHex (strip0x s) with
          | none =>
              refine Or.inl ⟨?_, "non-hexadecimal value in " ++ name, ?_⟩
              · simp [reqHexBad, hex32Ok, hbs]
              · simp [parseHexField32, parseHexString, hbs]
          | some bs =>
              by_cases hl : bs.length = 32
              · refine Or.inr ⟨?_, bs, ?_⟩
                · simp [reqHexBad, hex32Ok, hbs, hl]
                · simp [parseHexField32, parseHexString, hbs, hl]
              · refine Or.inl ⟨?_, name ++ " must be 32 bytes", ?_⟩
                · simp [reqHexBad, hex32Ok, hbs, hl]
                · simp [parseHexField32, parseHexString, hbs, hl]
      | jint n => simp [strOrAbsent] at h
      | jbool b => simp [strOrAbsent] at h
      | jother t => simp [strOrAbsent] at h

lemma parseFirmware_spec (o : Option JVal) (h : strOrAbsent o = true) :
    (fwBad o = true ∧ ∃ d, parseFirmware o = .error (.malformedReceipt d)) ∨
    (fwBad o = false ∧ ∃ bs, parseFirmware o = .ok bs) := by
  cases o with
  | none => exact Or.inr ⟨rfl, List.replicate 32 0, rfl⟩
  | some v =>
      cases v with
      | jstr s =>
          by_cases ht : truthy (JVal.jstr s) = true
          · cases hbs : bytesFromHex (strip0x s) with
            | none =>
                refine Or.inl ⟨?_, "non-hexadecimal value in firmware_hash", ?_⟩
                · simp [fwBad, ht, hex32Ok, hbs]
                · simp [parseFirmware, ht, parseHexString, hbs]
            | some bs =>
                by_cases hl : bs.length = 32
                · refine Or.inr ⟨?_, bs, ?_⟩
                  · simp [fwBad, ht, hex32Ok, hbs, hl]
                  · simp [parseFirmware, ht, parseHexString, hbs, hl]
                · refine Or.inl ⟨?_, "firmware_hash must be 32 bytes", ?_⟩
                  · simp [fwBad, ht, hex32Ok, hbs, hl]
                  · simp [parseFirmware, ht, parseHexString, hbs, hl]
          · have ht' : truthy (JVal.jstr s) = false := by simpa using ht
            refine Or.inr ⟨?_, List.replicate 32 0, ?_⟩
            · simp [fwBad, ht']
            · simp [parseFirmware, ht']
      | jint n => simp [strOrAbsent] at h
      | jbool b => simp [strOrAbsent] at h
      | jother t => simp [strOrAbsent] at h

lemma parseCounter_spec (o : Option JVal) (h : counterTypeOk o = true) :
    (counterBad o = true ∧ ∃ d, parseCounter o = .error (.malformedReceipt d)) ∨
    (counterBad o = false ∧ ∃ c, parseCounter o = .ok c) := by
  cases o with
  | none => exact Or.inl ⟨rfl, "counter", rfl⟩
  | some v =>
      cases v with
      | jint n =>
          by_cases hneg : n < 0
          · refine Or.inl ⟨?_, "counter must be non-negative", ?_⟩
            · simp [counterBad, hneg]
            · simp [parseCounter, pyInt?, hneg]
          · by_cases hbig : n > (2 ^ 64 - 1 : Int)
            · refine Or.inl ⟨?_, "counter must fit in uint64", ?_⟩
              · simp only [counterBad]
                simp [hneg]
                omega
              · simp only [parseCounter, pyInt?]
                rw [if_neg hneg, if_pos hbig]
            · refine Or.inr ⟨?_, n.toNat, ?_⟩
              · simp only [counterBad]
                simp [hneg]
                omega
              · simp only [parseCounter, pyInt?]
                rw [if_neg hneg, if_neg hbig]
      | jstr s =>
          cases hsi : strToInt? s with
          | none =>
              refine Or.inl ⟨?_, "invalid literal for int", ?_⟩
              · simp [counterBad, hsi]
              · simp [parseCounter, pyInt?, hsi]
          | some n =>
              by_cases hneg : n < 0
              · refine Or.inl ⟨?_, "counter must be non-negative", ?_⟩
                · simp [counterBad, hsi, hneg]
                · simp [parseCounter, pyInt?, hsi, hneg]
              · by_cases hbig : n > (2 ^ 64 - 1 : Int)
                · refine Or.inl ⟨?_, "counter must fit in uint64", ?_⟩
                  · simp only [counterBad, hsi]
                    simp [hneg]
                    omega
                  · simp only [parseCounter, pyInt?, hsi]
                    rw [if_neg hneg, if_pos hbig]
                · refine Or.inr ⟨?_, n.toNat, ?_⟩
                  · simp only [counterBad, hsi]
                    simp [hneg]
                    omega
                  · simp only [parseCounter, pyInt?, hsi]
                    rw [if_neg hneg, if_neg hbig]
      | jbool b =>
          cases b with
          | false => exact Or.inr ⟨rfl, 0, by decide⟩
          | true => exact Or.inr ⟨rfl, 1, by decide⟩
      | jother t => simp [counterTypeOk] at h

/-- Counterexample to C7 as stated: a record lacking the
`hardware_identity` key (all other fields valid) fails with a wrapped
`KeyError` — a MalformedReceipt error — while none of the conditions
listed by the claim (hex field of wrong decoded length; counter absent,
negative or over `2^64 - 1`; unparseable container) holds. -/
theorem parse_malformed_counterexample :
    isMalformedE (parseReceipt jpC7 "blob") = true ∧
    specC7cond (jpC7 "blob") = false := by
  refine ⟨by decide, by decide⟩

/-- Amended C7: an unparseable container fails with MalformedReceipt; for
a parseable object record whose present hex fields are strings and whose
counter, if present, is an integer, a string or a boolean, the parse
fails with MalformedReceipt exactly when a required hex field is absent,
non-hex or not 32 bytes, or the (truthy) firmware string is non-hex or
not 32 bytes, or the counter is absent, a non-numeric string, negative,
or over `2^64 - 1` (a numeric string is parsed; a boolean coerces to 0
or 1); and every verification outcome, parse failures included, is
returned to the caller as a typed result (a failing run also leaves the
store unchanged). -/
theorem parse_malformed_conditions :
    (∀ (jp : String → Option JDoc) (blob : String), jp blob = none →
        parseReceipt jp blob = .error (.malformedReceipt "Expecting value")) ∧
    (∀ fs : List (String × JVal), wellTypedFields fs = true →
        isMalformedE (parseFields fs) = malformedCond fs) ∧
    (∀ (kec : Bytes → Bytes) (jp : String → Option JDoc) (st : VState) (blob : String),
        (∃ st' : VState, verify_attestation kec jp st blob = (.ok (), st')) ∨
        (∃ e : VError, verify_attestation kec jp st blob = (.error e, st))) := by
  refine ⟨?_, ?_, ?_⟩
  · intro jp blob h
    simp [parseReceipt, h]
  · intro fs hwt
    simp only [wellTypedFields, Bool.and_eq_true] at hwt
    obtain ⟨⟨⟨⟨h1, h2⟩, h3⟩, h4⟩, h5⟩ := hwt
    unfold parseFields malformedCond
    rcases parseHexField32_spec (jget fs "hardware_identity") "hardware_identity" h1 with
      ⟨hb, d, heq⟩ | ⟨hb, bs, heq⟩
    · rw [heq, except_bind_error, hb]
      simp [isMalformedE]
    · rw [heq, except_bind_ok, hb]
      simp only [Bool.false_or]
      rcases parseFirmware_spec (jget fs "firmware_hash") h2 with
        ⟨hb2, d2, heq2⟩ | ⟨hb2, bs2, heq2⟩
      · rw [heq2, except_bind_error, hb2]
        simp [isMalformedE]
      · rw [heq2, except_bind_ok, hb2]
        simp only [Bool.false_or]
        rcases parseHexField32_spec (jget fs "execution_hash") "execution_hash" h3 with
          ⟨hb3, d3, heq3⟩ | ⟨hb3, bs3, heq3⟩
        · rw [heq3, except_bind_error, hb3]
          simp [isMalformedE]
        · rw [heq3, except_bind_ok, hb3]
          simp only [Bool.false_or]
          rcases parseHexField32_spec (jget fs "receipt_digest") "receipt_digest" h4 with
            ⟨hb4, d4, heq4⟩ | ⟨hb4, bs4, heq4⟩
          · rw [heq4, except_bind_error, hb4]
            simp [isMalformedE]
          · rw [heq4, except_bind_ok, hb4]
            simp only [Bool.false_or]
            rcases parseCounter_spec (jget fs "counter") h5 with
              ⟨hb5, d5, heq5⟩ | ⟨hb5, c, heq5⟩
            · rw [heq5, except_bind_error, hb5]
              simp [isMalformedE]
            · rw [heq5, except_bind_ok, hb5]
              simp [isMalformedE, pure, Except.pure]
  · intro kec jp st blob
    cases hp : parseReceipt jp blob with
    | error e =>
        refine Or.inr ⟨e, ?_⟩
        unfold verify_attestation
        rw [hp]
    | ok r =>
        cases hv : verifyReceipt kec st r with
        | mk res st2 =>
            cases res with
            | ok u =>
                cases u
                refine Or.inl ⟨st2, ?_⟩
                unfold verify_attestation
                rw [hp]
                exact hv
            | error e =>
                refine Or.inr ⟨e, ?_⟩
                unfold verify_attestation
                rw [hp]
                exact verifyReceipt_error_state kec st r e st2 hv ▸ hv

/-- Witness for the amended C7: an unparseable container, the concrete
well-typed valid record, the firmware-less record, and the record whose
counter is the non-numeric string `"abc"` (wrapped `ValueError`, hence
MalformedReceipt). -/
theorem parse_malformed_conditions_witness :
    (jpNone "x" = none ∧
      parseReceipt jpNone "x" = .error (.malformedReceipt "Expecting value")) ∧
    (wellTypedFields fieldsOk = true ∧
      isMalformedE (parseFields fieldsOk) = malformedCond fieldsOk) ∧
    (wellTypedFields fieldsC6 = true ∧
      isMalformedE (parseFields fieldsC6) = malformedCond fieldsC6) ∧
    (wellTypedFields fieldsStrCnt = true ∧
      isMalformedE (parseFields fieldsStrCnt) = malformedCond fieldsStrCnt ∧
      isMalformedE (parseFields fieldsStrCnt) = true) :=
  ⟨⟨rfl, parse_malformed_conditions.1 jpNone "x" rfl⟩,
   ⟨by decide, parse_malformed_conditions.2.1 fieldsOk (by decide)⟩,
   ⟨by decide, parse_malformed_conditions.2.1 fieldsC6 (by decide)⟩,
   ⟨by decide, parse_malformed_conditions.2.1 fieldsStrCnt (by decide), by decide⟩⟩
